import Mathlib

/-!
# Verification of the IdleMMO Market Helper core

A shallow embedding of the userscript's core logic (`src/index.js`):
the IndexedDB-backed price store with its stalled-write buffer, the
item-name resolver backed by the static vendor table, and the craft
profit computation.  JavaScript numbers are modelled exactly as
rationals; `NaN` (which `parseInt` can produce) is modelled as `none`
in `JSNum := Option ℚ`, and NaN propagates through arithmetic as in
JavaScript.  Asynchronous IndexedDB callbacks are modelled by explicit
state passing: a `put` issued inside a transaction is applied to the
store state in transaction-creation order, which for this script
coincides with the synchronous order in which the `put` calls are
issued.
-/

namespace MarketHelper

/-- A JavaScript number: `none` models `NaN`, `some q` an exact value. -/
abbrev JSNum := Option ℚ

def jsAdd : JSNum → JSNum → JSNum
  | some a, some b => some (a + b)
  | _, _ => none

def jsSub : JSNum → JSNum → JSNum
  | some a, some b => some (a - b)
  | _, _ => none

def jsMul : JSNum → JSNum → JSNum
  | some a, some b => some (a * b)
  | _, _ => none

/-- `Math.floor`, NaN-propagating. -/
def jsFloor : JSNum → JSNum
  | some a => some (⌊a⌋ : ℤ)
  | none => none

/-- `Math.round` (half up, i.e. `⌊x + 1/2⌋`), NaN-propagating. -/
def jsRound : JSNum → JSNum
  | some a => some (round a : ℤ)
  | none => none

def jsOfInt? (x : Option ℤ) : JSNum := x.map fun n => (n : ℚ)

/-- An ASCII digit, by code point. -/
def isDigitCh (c : Char) : Bool := 48 ≤ c.toNat && c.toNat ≤ 57

/-- Whitespace as skipped by `parseInt` and stripped by `trim`
(space, tab, line feed, carriage return). -/
def isSpaceCh (c : Char) : Bool :=
  c.toNat = 32 || c.toNat = 9 || c.toNat = 10 || c.toNat = 13

/-- `String.prototype.trim()`: strip leading and trailing whitespace. -/
def trimJS (s : String) : String :=
  String.mk (((s.toList.dropWhile isSpaceCh).reverse.dropWhile isSpaceCh).reverse)

/-- Value of a digit run, most significant first (radix 10). -/
def digitsVal (l : List Char) : ℕ :=
  l.foldl (fun a c => 10 * a + (c.toNat - 48)) 0

/-- The maximal leading digit run of a character list, or `none` if it
is empty (`parseInt` yields `NaN` then). -/
def readDigits (l : List Char) : Option ℕ :=
  let ds := l.takeWhile isDigitCh
  if ds.isEmpty then none else some (digitsVal ds)

/-- JavaScript `parseInt(s, 10)`: skip leading whitespace, optional
sign, then the maximal digit run; `NaN` (`none`) if no digits. -/
def parseIntJS (s : String) : Option ℤ :=
  match s.toList.dropWhile isSpaceCh with
  | [] => none
  | c :: rest =>
    if c = '-' then (readDigits rest).map fun n => -(n : ℤ)
    else if c = '+' then (readDigits rest).map fun n => (n : ℤ)
    else (readDigits (c :: rest)).map fun n => (n : ℤ)

/-- `s.replace(/,/g, '')`. -/
def stripCommas (s : String) : String :=
  String.mk (s.toList.filter fun c => c ≠ ',')

/-- The `price.minimum` field of a market snapshot entry: a native
number or a (comma-grouped) string. -/
inductive PriceMin where
  | num : ℤ → PriceMin
  | str : String → PriceMin
deriving DecidableEq

/-- A raw market snapshot entry as received from the intercepted API
response (§6 of the design: `{id, hashed_id, price:{minimum}, name, tier}`). -/
structure RawEntry where
  id : ℤ
  hashed_id : String
  price_minimum : PriceMin
  name : String
  tier : Option ℤ
deriving DecidableEq

/-- A record of the `items` object store, in the field order of the
object literal built in `storeItemsIndexedDB`.  `minimumPrice` is
`none` when `parseInt` produced `NaN`. -/
structure ItemData where
  id : ℤ
  hashed_id : String
  minimumPrice : Option ℤ
  name : String
  tier : Option ℤ
deriving DecidableEq

/-- `typeof minimum === 'string' ? parseInt(minimum.replace(/,/g,''), 10) : minimum`. -/
def parseMinimumPrice : PriceMin → Option ℤ
  | .num n => some n
  | .str s => parseIntJS (stripCommas s)

def deriveItemData (e : RawEntry) : ItemData :=
  { id := e.id
    hashed_id := e.hashed_id
    minimumPrice := parseMinimumPrice e.price_minimum
    name := e.name
    tier := e.tier }

/-- `item.tier !== null && item.tier > 1`. -/
def tierSkip (tier : Option ℤ) : Bool :=
  match tier with
  | some t => decide (1 < t)
  | none => false

/-- `objectStore.put`: replace the record(s) with the same primary key,
else append. -/
def idbPut (store : List ItemData) (x : ItemData) : List ItemData :=
  if store.any (fun y => y.id = x.id) then
    store.map fun y => if y.id = x.id then x else y
  else
    store ++ [x]

/-- `objectStore.get`/key lookup on the primary key. -/
def idbGet (store : List ItemData) (i : ℤ) : Option ItemData :=
  store.find? fun it => it.id = i

/-- One iteration of the `data.forEach` loop of `storeItemsIndexedDB`:
skip tiers above 1, else derive the record and `put` it. -/
def upsertEntry (store : List ItemData) (e : RawEntry) : List ItemData :=
  if tierSkip e.tier then store else idbPut store (deriveItemData e)

/-- The whole `data.forEach(item => ...)` loop over one batch. -/
def upsertBatch (store : List ItemData) (b : List RawEntry) : List ItemData :=
  b.foldl upsertEntry store

/-- The script's mutable globals: the `db` handle (`dbReady = false`
models `db === null`), the `stalledXHR` array in push order (a JS array
pushed/popped at its end), and the content of the `items` object store. -/
structure SysState where
  dbReady : Bool
  stalled : List (List RawEntry)
  store : List ItemData
deriving DecidableEq

/-- `storeItemsIndexedDB(data)`: with no db handle, push the batch onto
`stalledXHR`; otherwise first recursively drain one popped backlog
batch (the source's `storeItemsIndexedDB(stalledXHR.pop())`), then run
this batch's own transaction.  The recursive call issues its `put`s —
and creates its transaction — before this call does, so its batch is
applied to the store first. -/
def storeItemsIndexedDB (data : List RawEntry) (s : SysState) : SysState :=
  if s.dbReady = false then
    { s with stalled := s.stalled ++ [data] }
  else
    match h : s.stalled.getLast? with
    | none => { s with store := upsertBatch s.store data }
    | some prev =>
      let s' := storeItemsIndexedDB prev { s with stalled := s.stalled.dropLast }
      { s' with store := upsertBatch s'.store data }
termination_by s.stalled.length
decreasing_by
  have hne : s.stalled ≠ [] := by
    intro hnil
    rw [hnil] at h
    simp at h
  have := List.length_pos.mpr hne
  rw [List.length_dropLast]
  omega

/-- The `while (stalledXHR.length > 0)` loop of the `onsuccess`
handler, with explicit fuel (the loop provably empties the backlog in
its first iteration once the db is ready, so `stalled.length` fuel
suffices). -/
def drainLoop : ℕ → SysState → SysState
  | 0, s => s
  | fuel + 1, s =>
    match s.stalled.getLast? with
    | none => s
    | some d => drainLoop fuel (storeItemsIndexedDB d { s with stalled := s.stalled.dropLast })

/-- The `request.onsuccess` handler: publish the db handle, then drain
the stalled batches. -/
def onDbSuccess (s : SysState) : SysState :=
  drainLoop s.stalled.length { s with dbReady := true }

/-- An entry of the static `VENDOR_ITEMS` table, restricted to the
fields the script reads (`id`, `name`, `price`); the presentation-only
fields (image url, description, currency, sale data) are omitted. -/
structure VendorItem where
  id : ℤ
  name : String
  price : ℤ
deriving DecidableEq

set_option maxHeartbeats 1000000 in
/-- The static `VENDOR_ITEMS` table from the script (92 entries),
projected to the fields the logic reads. -/
def VENDOR_ITEMS : List VendorItem := [
  ⟨152, "Toxilord", 500⟩,
  ⟨84, "Gleamara", 400⟩,
  ⟨82, "Nightreaper", 500⟩,
  ⟨72, "Oilegeist", 410⟩,
  ⟨147, "Emberjack", 500⟩,
  ⟨148, "El Zombrero", 500⟩,
  ⟨150, "La Marioneta", 500⟩,
  ⟨151, "Voidmaw", 500⟩,
  ⟨7, "Freya", 375⟩,
  ⟨57, "Whispers of the Waves", 150⟩,
  ⟨58, "Natural Disaster", 250⟩,
  ⟨59, "Serenity", 200⟩,
  ⟨74, "Ankhotep", 175⟩,
  ⟨56, "Veils of the Valley", 200⟩,
  ⟨96, "Winged Amethyst", 150⟩,
  ⟨97, "Verdant Knight", 150⟩,
  ⟨98, "Thicket Skull", 150⟩,
  ⟨99, "Stonehelm", 180⟩,
  ⟨100, "Spikeguard Red", 150⟩,
  ⟨102, "Scholars Doom", 150⟩,
  ⟨103, "Regal Timber", 150⟩,
  ⟨104, "Prideguard", 150⟩,
  ⟨106, "Lion Monolith", 150⟩,
  ⟨108, "Harpoon Anchor", 150⟩,
  ⟨109, "Green Bone", 120⟩,
  ⟨110, "Granite Visage Badge", 150⟩,
  ⟨111, "Forest Skull", 150⟩,
  ⟨112, "Dragonfire Aegis", 150⟩,
  ⟨115, "Defenders Sigil", 150⟩,
  ⟨117, "Demon Skull", 150⟩,
  ⟨118, "Crimson Guard", 130⟩,
  ⟨119, "Cobalt Bastion", 130⟩,
  ⟨120, "Azure Sigil", 130⟩,
  ⟨121, "Azure Orb", 130⟩,
  ⟨122, "Azure Blade", 150⟩,
  ⟨127, "Ella", 230⟩,
  ⟨146, "Aure", 500⟩,
  ⟨18, "Orcenzum", 420⟩,
  ⟨42, "Thorgarr", 425⟩,
  ⟨41, "Fendral", 225⟩,
  ⟨40, "Celestria", 310⟩,
  ⟨55, "Peaceful Night", 150⟩,
  ⟨28, "Additional Bank Slot", 80⟩,
  ⟨27, "Additional Pet Slot", 125⟩,
  ⟨26, "Additional Inventory Slot", 125⟩,
  ⟨25, "Character Slot", 500⟩,
  ⟨20, "Shiera", 325⟩,
  ⟨19, "Roclus", 150⟩,
  ⟨39, "Bronn", 270⟩,
  ⟨17, "Mircus", 370⟩,
  ⟨16, "Melriel", 325⟩,
  ⟨15, "Leilatha", 325⟩,
  ⟨14, "Katiyara", 350⟩,
  ⟨13, "Gerrin", 415⟩,
  ⟨12, "Feron", 360⟩,
  ⟨11, "Elfirma", 360⟩,
  ⟨8, "Lucian", 410⟩,
  ⟨1, "Isolde", 325⟩,
  ⟨45, "Alpine", 100⟩,
  ⟨54, "Golden Silence", 150⟩,
  ⟨52, "Moonlit Brilliance", 200⟩,
  ⟨51, "Magma's Elegy", 250⟩,
  ⟨50, "Golden Farewell", 100⟩,
  ⟨49, "Celestial Horizon", 100⟩,
  ⟨48, "Veiled Voyage", 100⟩,
  ⟨44, "Frozen Mirror", 100⟩,
  ⟨46, "Luminous Nocture", 100⟩,
  ⟨47, "Seafarer's Respite", 100⟩,
  ⟨32, "Cheap Bait", 2⟩,
  ⟨33, "Tarnished Bait", 4⟩,
  ⟨34, "Gleaming Bait", 7⟩,
  ⟨35, "Elemental Bait", 12⟩,
  ⟨36, "Eldritch Bait", 16⟩,
  ⟨144, "Metamorphite", 500⟩,
  ⟨145, "Namestone", 500⟩,
  ⟨37, "Arcane Bait", 25⟩,
  ⟨60, "Simple Fishing Rod", 10⟩,
  ⟨61, "Simple Pickaxe", 10⟩,
  ⟨62, "Simple Felling Axe", 10⟩,
  ⟨63, "Cheap Vial", 5⟩,
  ⟨175, "Cheap Crystal", 5⟩,
  ⟨64, "Tarnished Vial", 10⟩,
  ⟨176, "Tarnished Crystal", 10⟩,
  ⟨65, "Gleaming Vial", 50⟩,
  ⟨177, "Gleaming Crystal", 50⟩,
  ⟨66, "Elemental Vial", 200⟩,
  ⟨178, "Elemental Crystal", 200⟩,
  ⟨67, "Eldritch Vial", 500⟩,
  ⟨179, "Eldritch Crystal", 500⟩,
  ⟨68, "Arcane Vial", 2500⟩,
  ⟨180, "Arcane Crystal", 2500⟩,
  ⟨69, "Empty Crystal", 50⟩]

/-- `VENDOR_ITEMS.find(item => item.name === name) || null`. -/
def findVendorItemByName (name : String) : Option VendorItem :=
  VENDOR_ITEMS.find? fun item => item.name = name

/-- What `getItemByNameIndexedDB` resolves to: the vendor branch builds
`{name, id, minimumPrice}` and the store branch is only ever read for
the same fields. -/
structure ResolvedItem where
  name : String
  id : ℤ
  minimumPrice : Option ℤ
deriving DecidableEq

/-- The smallest-primary-key element of a list of records. -/
def pickMinId : List ItemData → Option ItemData
  | [] => none
  | it :: rest =>
    match pickMinId rest with
    | none => some it
    | some b => if b.id < it.id then some b else some it

/-- `index.get(name)` on the non-unique `name` index: IndexedDB orders
index entries by key then primary key, so `get` returns the matching
record with the smallest `id`. -/
def idbIndexGetName (store : List ItemData) (name : String) : Option ItemData :=
  pickMinId (store.filter fun it => it.name = name)

/-- `getItemByNameIndexedDB(name)`: vendor table first (returning
immediately, without a store transaction); else reject when the db is
not connected; else query the `name` index, rejecting when no record
exists.  A rejected promise is modelled as `Except.error`. -/
def getItemByNameIndexedDB (s : SysState) (name : String) : Except String ResolvedItem :=
  match findVendorItemByName name with
  | some v => .ok { name := v.name, id := v.id, minimumPrice := some v.price }
  | none =>
    if s.dbReady = false then .error "Database not connected."
    else
      match idbIndexGetName s.store name with
      | some item => .ok { name := item.name, id := item.id, minimumPrice := item.minimumPrice }
      | none => .error ("Item with name " ++ name ++ " not found.")

/-- A scraped requirement span of a recipe button that carries both the
quantity span and the item-name span (spans without both are skipped by
the source without any effect and are not modelled). -/
structure RawRequirement where
  quantityText : String
  itemNameText : String
deriving DecidableEq

/-- A scraped recipe: trimmed name, parsed craft time, requirement
spans.  The craft time is the already-parsed `parseFloat` result. -/
structure RawRecipe where
  recipeName : String
  craftTimeSeconds : ℚ
  requirements : List RawRequirement
deriving DecidableEq

/-- An element pushed onto `recipe.requirements` (the DOM span element
is not modelled). -/
structure ReqCost where
  quantity : ℤ
  name : String
  totalPrice : JSNum
deriving DecidableEq

/-- The observable outcome for one recipe: the fields written into the
`recipe` object plus the locals `totalCost`, `totalProfit`,
`numPerHour` and the rendered `profitPerHour`. -/
structure ProfitRow where
  recipeName : String
  recipeSellPrice : JSNum
  recipeSellPriceWithTax : JSNum
  craftTimeSeconds : ℚ
  requirements : List ReqCost
  totalCost : JSNum
  totalProfit : JSNum
  numPerHour : ℚ
  profitPerHour : JSNum
deriving DecidableEq

/-- The sell-price step of `renderCraftProfit`: the hardcoded
"Cooked Cod" escape (sell price and taxed sell price both 2, untaxed),
else resolve the output name and take
`Math.floor(recipeSellPrice * 0.88)`. -/
def resolveSellPrice (s : SysState) (recipeName : String) : Except String (JSNum × JSNum) :=
  if recipeName = "Cooked Cod" then
    .ok (some 2, some 2)
  else
    match getItemByNameIndexedDB s recipeName with
    | .error e => .error e
    | .ok recipeItem =>
      let sp := jsOfInt? recipeItem.minimumPrice
      .ok (sp, jsFloor (jsMul sp (some (0.88 : ℚ))))

/-- One requirement span: parse the quantity and trim the name; when
the quantity is `NaN` or the name empty, warn and skip (contributing
nothing); else resolve the item and push its cost line.  The source's
`if (!itemData)` zeroing branch is unreachable — `getItemByNameIndexedDB`
rejects instead of resolving a null value — so a failed resolution
surfaces here as the error of the awaited promise. -/
def processRequirement (s : SysState) (acc : List ReqCost) (req : RawRequirement) :
    Except String (List ReqCost) :=
  match parseIntJS (trimJS req.quantityText) with
  | none => .ok acc
  | some quantity =>
    let itemName := trimJS req.itemNameText
    if itemName = "" then .ok acc
    else
      match getItemByNameIndexedDB s itemName with
      | .error e => .error e
      | .ok itemData =>
        .ok (acc ++ [{ quantity := quantity
                       name := itemName
                       totalPrice := jsMul (jsOfInt? itemData.minimumPrice) (some (quantity : ℚ)) }])

/-- The `Promise.all` over the requirement spans, modelled sequentially
(a rejection of any member rejects the whole, and the aggregate cost is
a sum, insensitive to completion order). -/
def processRequirements (s : SysState) (reqs : List RawRequirement) :
    Except String (List ReqCost) :=
  reqs.foldlM (processRequirement s) []

/-- The per-recipe body of the `renderCraftProfit` loop.  An `await` of
a rejected promise throws, so the result is `Except`: `.ok` carries the
data the loop writes and renders for the recipe. -/
def computeRecipe (s : SysState) (r : RawRecipe) : Except String ProfitRow :=
  match resolveSellPrice s r.recipeName with
  | .error e => .error e
  | .ok (sellPrice, sellTax) =>
    match processRequirements s r.requirements with
    | .error e => .error e
    | .ok reqCosts =>
      let totalCost := reqCosts.foldl (fun acc rc => jsAdd acc rc.totalPrice) (some 0)
      let totalProfit := jsSub sellTax totalCost
      let numPerHour := 3600 / r.craftTimeSeconds
      .ok { recipeName := r.recipeName
            recipeSellPrice := sellPrice
            recipeSellPriceWithTax := sellTax
            craftTimeSeconds := r.craftTimeSeconds
            requirements := reqCosts
            totalCost := totalCost
            totalProfit := totalProfit
            numPerHour := numPerHour
            profitPerHour := jsRound (jsMul totalProfit (some numPerHour)) }

/-- The whole `renderCraftProfit` loop over the scraped recipes.  The
loop body `await`s, and renderCraftProfit is an `async` function with
no try/catch, so the first rejected resolution aborts the remainder of
the loop: the render of a page is an `Except` over the list of rows. -/
def renderCraftProfit (s : SysState) (recipes : List RawRecipe) :
    Except String (List ProfitRow) :=
  recipes.foldlM (fun acc r =>
    match computeRecipe s r with
    | .error e => .error e
    | .ok row => .ok (acc ++ [row])) []

/-! ## Concrete fixtures used by witnesses and counterexamples -/

def readyStore : List ItemData :=
  [⟨1, "hp", some 100, "Healing Potion", some 1⟩,
   ⟨2, "io", some 2, "Iron Ore", some 1⟩]

def readyState : SysState := ⟨true, [], readyStore⟩

def scenarioRecipe : RawRecipe := ⟨"Healing Potion", 10, [⟨"1", "Iron Ore"⟩]⟩

def badRecipe : RawRecipe := ⟨"Healing Potion", 10, [⟨"1", "Missing Gem"⟩]⟩

def goodRecipe : RawRecipe := ⟨"Healing Potion", 10, []⟩

/-- The row computed for `scenarioRecipe` (Scenario C of the spec, with
the items priced through the store). -/
def scenarioRow : ProfitRow :=
  ⟨"Healing Potion", some 100, some 88, 10, [⟨1, "Iron Ore", some 2⟩],
   some 2, some 86, 360, some 30960⟩

theorem computeRecipe_scenario : computeRecipe readyState scenarioRecipe = .ok scenarioRow := by
  have h1 : getItemByNameIndexedDB readyState "Healing Potion" =
      .ok ⟨"Healing Potion", 1, some 100⟩ := rfl
  have h2 : getItemByNameIndexedDB readyState "Iron Ore" =
      .ok ⟨"Iron Ore", 2, some 2⟩ := rfl
  have h3 : parseIntJS (trimJS "1") = some 1 := rfl
  have h4 : trimJS "Iron Ore" = "Iron Ore" := rfl
  have h5 : ("Healing Potion" : String) ≠ "Cooked Cod" := by decide
  have h7 : ("Iron Ore" : String) ≠ "" := by decide
  norm_num [computeRecipe, resolveSellPrice, processRequirements, processRequirement,
    scenarioRecipe, scenarioRow, h1, h2, h3, h4, h5, h7, jsOfInt?, jsMul, jsAdd, jsSub,
    jsFloor, jsRound, List.foldlM, List.foldl, round_eq]

/-! ## Tier filtering (C2) -/

/-- Claim C2: an ingested entry whose tier is present and numerically
greater than 1 is skipped entirely by the upsert — it neither writes a
new record nor overwrites an existing one, and deleting it from any
batch leaves the batch's effect on the store unchanged. -/
theorem tier_above_one_entry_never_written (store : List ItemData) (e : RawEntry) (t : ℤ)
    (ht : e.tier = some t) (h1 : 1 < t) :
    upsertEntry store e = store ∧
    ∀ b1 b2 : List RawEntry, upsertBatch store (b1 ++ e :: b2) = upsertBatch store (b1 ++ b2) := by
  have hskip : tierSkip e.tier = true := by
    rw [ht]; simpa [tierSkip] using h1
  have hup : ∀ st : List ItemData, upsertEntry st e = st := by
    intro st; simp [upsertEntry, hskip]
  refine ⟨hup store, fun b1 b2 => ?_⟩
  simp [upsertBatch, List.foldl_append, hup]

def tier2Entry : RawEntry := ⟨2, "ri", .num 500, "Refined Iron", some 2⟩

theorem tier_above_one_entry_never_written_witness :
    tier2Entry.tier = some 2 ∧ (1 : ℤ) < 2 ∧
    upsertEntry [] tier2Entry = [] ∧
    upsertBatch [] ([] ++ tier2Entry :: []) = upsertBatch [] ([] ++ []) :=
  ⟨rfl, by decide, (tier_above_one_entry_never_written [] tier2Entry 2 rfl (by decide)).1,
   (tier_above_one_entry_never_written [] tier2Entry 2 rfl (by decide)).2 [] []⟩

/-! ## Resolution priority (C7) -/

/-- Claim C7: a name present in the vendor catalog — even one also
present in the price store — resolves to the catalog record, with the
catalog's fixed price as `minimumPrice`, and the result is the same for
every store state (the store is never queried). -/
theorem vendor_catalog_takes_priority (name : String) (v : VendorItem) (s s' : SysState)
    (hv : findVendorItemByName name = some v)
    (hstore : ∃ it ∈ s.store, it.name = name) :
    getItemByNameIndexedDB s name = .ok ⟨v.name, v.id, some v.price⟩ ∧
    getItemByNameIndexedDB s name = getItemByNameIndexedDB s' name := by
  constructor <;> simp [getItemByNameIndexedDB, hv]

def overlapState : SysState := ⟨true, [], [⟨152, "tx", some 999, "Toxilord", some 1⟩]⟩

theorem vendor_catalog_takes_priority_witness :
    findVendorItemByName "Toxilord" = some ⟨152, "Toxilord", 500⟩ ∧
    (∃ it ∈ overlapState.store, it.name = "Toxilord") ∧
    getItemByNameIndexedDB overlapState "Toxilord" = .ok ⟨"Toxilord", 152, some 500⟩ :=
  ⟨rfl, ⟨⟨152, "tx", some 999, "Toxilord", some 1⟩, by simp [overlapState], rfl⟩,
   (vendor_catalog_takes_priority "Toxilord" ⟨152, "Toxilord", 500⟩ overlapState ⟨false, [], []⟩
      rfl ⟨⟨152, "tx", some 999, "Toxilord", some 1⟩, by simp [overlapState], rfl⟩).1⟩

/-! ## Malformed requirements are skipped (C10) -/

theorem processRequirement_skip (s : SysState) (acc : List ReqCost) (req : RawRequirement)
    (h : parseIntJS (trimJS req.quantityText) = none ∨ trimJS req.itemNameText = "") :
    processRequirement s acc req = .ok acc := by
  unfold processRequirement
  rcases h with h | h
  · rw [h]
  · cases hq : parseIntJS (trimJS req.quantityText) with
    | none => rfl
    | some q => simp [h]

theorem foldlM_skip_middle (s : SysState) (l1 l2 : List RawRequirement) (bad : RawRequirement)
    (h : parseIntJS (trimJS bad.quantityText) = none ∨ trimJS bad.itemNameText = "") :
    ∀ acc : List ReqCost,
      (l1 ++ bad :: l2).foldlM (processRequirement s) acc =
        (l1 ++ l2).foldlM (processRequirement s) acc := by
  induction l1 with
  | nil =>
    intro acc
    simp only [List.nil_append, List.foldlM_cons]
    rw [processRequirement_skip s acc bad h]
    rfl
  | cons a l1 ih =>
    intro acc
    simp only [List.cons_append, List.foldlM_cons]
    cases hpa : processRequirement s acc a with
    | error e => rfl
    | ok acc' => exact ih acc'

/-- Claim C10: a scraped requirement whose quantity text does not parse
to an integer, or whose trimmed item name is empty, is silently
dropped: the recipe computes exactly as if that requirement were
absent — no resolution is attempted for it, it adds nothing to the
total cost, and the recipe still yields its profit row. -/
theorem malformed_requirement_skipped (s : SysState) (nm : String) (ct : ℚ)
    (l1 l2 : List RawRequirement) (bad : RawRequirement)
    (h : parseIntJS (trimJS bad.quantityText) = none ∨ trimJS bad.itemNameText = "") :
    computeRecipe s ⟨nm, ct, l1 ++ bad :: l2⟩ = computeRecipe s ⟨nm, ct, l1 ++ l2⟩ := by
  unfold computeRecipe processRequirements
  rw [foldlM_skip_middle s l1 l2 bad h]

def badQtyReq : RawRequirement := ⟨"x", "Unpriced Oddity"⟩

theorem malformed_requirement_skipped_witness :
    (parseIntJS (trimJS badQtyReq.quantityText) = none ∨ trimJS badQtyReq.itemNameText = "") ∧
    computeRecipe readyState ⟨"Healing Potion", 10, [⟨"1", "Iron Ore"⟩] ++ badQtyReq :: []⟩ =
      computeRecipe readyState ⟨"Healing Potion", 10, [⟨"1", "Iron Ore"⟩] ++ []⟩ ∧
    computeRecipe readyState ⟨"Healing Potion", 10, [⟨"1", "Iron Ore"⟩, badQtyReq]⟩ =
      .ok scenarioRow :=
  ⟨Or.inl (by decide),
   malformed_requirement_skipped readyState "Healing Potion" 10 [⟨"1", "Iron Ore"⟩] []
     badQtyReq (Or.inl (by decide)),
   by
    have h := malformed_requirement_skipped readyState "Healing Potion" 10
      [⟨"1", "Iron Ore"⟩] [] badQtyReq (Or.inl (by decide))
    simpa using h.trans computeRecipe_scenario⟩

/-! ## Stored prices are integers (C3) -/

theorem isSpaceCh_eq_false_of_digit (c : Char) (h : isDigitCh c = true) :
    isSpaceCh c = false := by
  simp only [isDigitCh, Bool.and_eq_true, decide_eq_true_eq] at h
  simp only [isSpaceCh, Bool.or_eq_false_iff, decide_eq_false_iff_not]
  omega

theorem ne_sign_of_digit (c : Char) (h : isDigitCh c = true) : c ≠ '-' ∧ c ≠ '+' := by
  simp only [isDigitCh, Bool.and_eq_true, decide_eq_true_eq] at h
  constructor <;> rintro rfl <;> simp at h

theorem parseIntJS_of_digits (s : String)
    (hne : s.toList ≠ []) (hd : ∀ c ∈ s.toList, isDigitCh c = true) :
    parseIntJS s = some (digitsVal s.toList : ℤ) := by
  unfold parseIntJS
  have hdrop : s.toList.dropWhile isSpaceCh = s.toList := by
    cases hl : s.toList with
    | nil => simp
    | cons c cs =>
      rw [List.dropWhile_cons]
      have hc : isDigitCh c = true := hd c (hl ▸ List.mem_cons_self c cs)
      simp [isSpaceCh_eq_false_of_digit c hc]
  rw [hdrop]
  cases hl : s.toList with
  | nil => exact absurd hl hne
  | cons c cs =>
    have hc : isDigitCh c = true := hd c (hl ▸ List.mem_cons_self c cs)
    obtain ⟨hm, hp⟩ := ne_sign_of_digit c hc
    have htake : (c :: cs).takeWhile isDigitCh = c :: cs :=
      List.takeWhile_eq_self_iff.mpr (fun a ha => hd a (hl ▸ ha))
    simp [if_neg hm, if_neg hp, readDigits, htake]

theorem find_in_replaced (l : List ItemData) (x : ItemData)
    (h : l.any (fun y => y.id = x.id) = true) :
    (l.map fun y => if y.id = x.id then x else y).find? (fun it => it.id = x.id) = some x := by
  induction l with
  | nil => simp at h
  | cons y rest ih =>
    simp only [List.map_cons]
    by_cases hy : y.id = x.id
    · rw [if_pos hy]
      exact List.find?_cons_of_pos _ (by simp)
    · rw [if_neg hy]
      rw [List.find?_cons_of_neg _ (by simpa using hy)]
      have h' : rest.any (fun y => y.id = x.id) = true := by
        simpa [hy] using h
      exact ih h'

theorem find_in_appended (l : List ItemData) (x : ItemData)
    (h : l.any (fun y => y.id = x.id) = false) :
    (l ++ [x]).find? (fun it => it.id = x.id) = some x := by
  induction l with
  | nil => exact List.find?_cons_of_pos _ (by simp)
  | cons y rest ih =>
    rw [List.any_cons, Bool.or_eq_false_iff] at h
    rw [List.cons_append, List.find?_cons_of_neg _ (by simpa using h.1)]
    exact ih h.2

/-- After a `put`, the key lookup for the written record's id returns
exactly that record. -/
theorem idbGet_idbPut (store : List ItemData) (x : ItemData) :
    idbGet (idbPut store x) x.id = some x := by
  unfold idbGet idbPut
  cases h : store.any (fun y => y.id = x.id) with
  | true => simpa [h] using find_in_replaced store x h
  | false => simpa [h] using find_in_appended store x h

/-- Statement-side predicate for the claim's hypothesis: the snapshot
price is a native number or a comma-grouped digit string. -/
def intSourced : PriceMin → Bool
  | .num _ => true
  | .str s =>
    !(stripCommas s).toList.isEmpty && (stripCommas s).toList.all isDigitCh

/-- Claim C3: whenever an upsert writes an entry, the stored record's
`minimumPrice` is a plain integer — whether the source price was a
native number or a comma-grouped string; in particular the string
"1,234" is stored as the integer 1234. -/
theorem upserted_minimumPrice_is_integer (store : List ItemData) (e : RawEntry)
    (hskip : tierSkip e.tier = false) (hsrc : intSourced e.price_minimum = true) :
    (∃ v : ℤ, (deriveItemData e).minimumPrice = some v) ∧
    idbGet (upsertEntry store e) e.id = some (deriveItemData e) ∧
    parseMinimumPrice (.str "1,234") = some 1234 := by
  refine ⟨?_, ?_, by decide⟩
  · cases hpm : e.price_minimum with
    | num n => exact ⟨n, by simp [deriveItemData, parseMinimumPrice, hpm]⟩
    | str s =>
      rw [hpm] at hsrc
      simp only [intSourced, Bool.and_eq_true, Bool.not_eq_true', List.all_eq_true] at hsrc
      obtain ⟨hne, hall⟩ := hsrc
      refine ⟨(digitsVal (stripCommas s).toList : ℤ), ?_⟩
      simp only [deriveItemData, parseMinimumPrice, hpm]
      exact parseIntJS_of_digits _ (by simpa [List.isEmpty_iff] using hne) hall
  · have h := idbGet_idbPut store (deriveItemData e)
    simpa [upsertEntry, hskip, deriveItemData] using h

def commaEntry : RawEntry := ⟨1, "io", .str "1,234", "Iron Ore", some 1⟩

theorem upserted_minimumPrice_is_integer_witness :
    tierSkip commaEntry.tier = false ∧ intSourced commaEntry.price_minimum = true ∧
    (∃ v : ℤ, (deriveItemData commaEntry).minimumPrice = some v) ∧
    idbGet (upsertEntry [] commaEntry) commaEntry.id = some (deriveItemData commaEntry) ∧
    (deriveItemData commaEntry).minimumPrice = some 1234 :=
  ⟨rfl, by decide, (upserted_minimumPrice_is_integer [] commaEntry rfl (by decide)).1,
   (upserted_minimumPrice_is_integer [] commaEntry rfl (by decide)).2.1, by decide⟩

/-! ## Upsert idempotence (C8) -/

theorem idbPut_idem (store : List ItemData) (x : ItemData) :
    idbPut (idbPut store x) x = idbPut store x := by
  unfold idbPut
  cases h : store.any (fun y => y.id = x.id) with
  | true =>
    simp only [h, if_true]
    have hany : ((store.map fun y => if y.id = x.id then x else y).any
        fun y => y.id = x.id) = true := by
      rw [List.any_eq_true] at h ⊢
      obtain ⟨y, hy, hid⟩ := h
      simp only [decide_eq_true_eq] at hid
      exact ⟨x, List.mem_map.mpr ⟨y, hy, by simp [hid]⟩, by simp⟩
    simp only [hany, if_true, List.map_map]
    apply List.map_congr_left
    intro y _
    by_cases hy : y.id = x.id <;> simp [Function.comp, hy]
  | false =>
    simp only [h, Bool.false_eq_true, if_false]
    have hany : ((store ++ [x]).any fun y => y.id = x.id) = true := by
      rw [List.any_append]
      simp
    simp only [hany, if_true, List.map_append]
    have h1 : (store.map fun y => if y.id = x.id then x else y) = store := by
      conv_rhs => rw [← List.map_id store]
      apply List.map_congr_left
      intro y hy
      have hne : ¬ (y.id = x.id) := by
        intro he
        have hc : store.any (fun y => y.id = x.id) = true :=
          List.any_eq_true.mpr ⟨y, hy, by simp [he]⟩
        simp [hc] at h
      simp [hne]
    rw [h1]
    have h2 : (([x] : List ItemData).map fun y => if y.id = x.id then x else y) = [x] := by
      simp
    rw [h2]

theorem countP_eq_one_of_mem_nodup (l : List ℤ) (a : ℤ) (hnd : l.Nodup) (hm : a ∈ l) :
    l.countP (fun i => i = a) = 1 := by
  induction l with
  | nil => simp at hm
  | cons b rest ih =>
    obtain ⟨hb, hrest⟩ := List.nodup_cons.mp hnd
    rw [List.countP_cons]
    rcases List.mem_cons.mp hm with rfl | hm'
    · have hz : rest.countP (fun i => i = a) = 0 :=
        List.countP_eq_zero.mpr fun x hx => by
          simp only [decide_eq_true_eq]
          rintro rfl
          exact hb hx
      simp [hz]
    · have hb' : ¬ (b = a) := by
        rintro rfl
        exact hb hm'
      simp [ih hrest hm', hb']

theorem idbPut_countP_eq_one (store : List ItemData) (x : ItemData)
    (hnd : (store.map fun it => it.id).Nodup) :
    ((idbPut store x).countP fun r => r.id = x.id) = 1 := by
  have key : ∀ l : List ItemData,
      (l.countP fun r => r.id = x.id) =
        ((l.map fun it => it.id).countP fun i => i = x.id) := by
    intro l
    rw [List.countP_map]
    rfl
  unfold idbPut
  cases h : store.any (fun y => y.id = x.id) with
  | true =>
    simp only [h, if_true]
    rw [key]
    have hmapeq : ((store.map fun y => if y.id = x.id then x else y).map fun it => it.id)
        = store.map fun it => it.id := by
      rw [List.map_map]
      apply List.map_congr_left
      intro y _
      by_cases hy : y.id = x.id <;> simp [Function.comp, hy]
    rw [hmapeq]
    apply countP_eq_one_of_mem_nodup _ _ hnd
    rw [List.any_eq_true] at h
    obtain ⟨y, hy, hid⟩ := h
    simp only [decide_eq_true_eq] at hid
    exact hid ▸ List.mem_map_of_mem (fun it => it.id) hy
  | false =>
    simp only [h, Bool.false_eq_true, if_false]
    rw [List.countP_append]
    have h0 : (store.countP fun r => r.id = x.id) = 0 :=
      List.countP_eq_zero.mpr fun r hr => by
        simp only [decide_eq_true_eq]
        intro he
        have hc : store.any (fun y => y.id = x.id) = true :=
          List.any_eq_true.mpr ⟨r, hr, by simp [he]⟩
        simp [hc] at h
    rw [h0]
    simp [List.countP_cons]

/-- Claim C8 counterexample: a tier-2 entry is skipped, so upserting it
twice — while indeed equal to upserting it once — leaves zero records
with its id, not exactly one. -/
theorem skipped_entry_double_upsert_no_record :
    upsertEntry (upsertEntry [] tier2Entry) tier2Entry = upsertEntry [] tier2Entry ∧
    ((upsertEntry (upsertEntry [] tier2Entry) tier2Entry).countP
      fun r => r.id = tier2Entry.id) = 0 :=
  ⟨rfl, rfl⟩

/-- Claim C8 (amended): upserting the same entry twice always leaves
the store equal to the result of upserting it once, and — for entries
the tier filter actually writes — the store then holds exactly one
record with that entry's id (on any store with duplicate-free ids). -/
theorem upsert_idempotent (store : List ItemData) (e : RawEntry)
    (hnd : (store.map fun it => it.id).Nodup) :
    upsertEntry (upsertEntry store e) e = upsertEntry store e ∧
    (tierSkip e.tier = false →
      ((upsertEntry store e).countP fun r => r.id = e.id) = 1) := by
  constructor
  · cases h : tierSkip e.tier with
    | true => simp [upsertEntry, h]
    | false =>
      simp only [upsertEntry, h, Bool.false_eq_true, if_false]
      exact idbPut_idem store (deriveItemData e)
  · intro h
    simp only [upsertEntry, h, Bool.false_eq_true, if_false]
    exact idbPut_countP_eq_one store (deriveItemData e) hnd

def ironEntry : RawEntry := ⟨2, "io", .num 2, "Iron Ore", some 1⟩

theorem upsert_idempotent_witness :
    (([] : List ItemData).map fun it => it.id).Nodup ∧
    tierSkip ironEntry.tier = false ∧
    upsertEntry (upsertEntry [] ironEntry) ironEntry = upsertEntry [] ironEntry ∧
    ((upsertEntry [] ironEntry).countP fun r => r.id = ironEntry.id) = 1 :=
  ⟨by simp, rfl, (upsert_idempotent [] ironEntry (by simp)).1,
   (upsert_idempotent [] ironEntry (by simp)).2 rfl⟩

/-! ## The shape of a successfully computed row (used by C4 and C9) -/

theorem computeRecipe_ok_fields (s : SysState) (r : RawRecipe) (row : ProfitRow)
    (h : computeRecipe s r = .ok row) :
    resolveSellPrice s r.recipeName = .ok (row.recipeSellPrice, row.recipeSellPriceWithTax) ∧
    row.craftTimeSeconds = r.craftTimeSeconds ∧
    row.totalCost = row.requirements.foldl (fun acc rc => jsAdd acc rc.totalPrice) (some 0) ∧
    row.totalProfit = jsSub row.recipeSellPriceWithTax row.totalCost ∧
    row.numPerHour = 3600 / r.craftTimeSeconds ∧
    row.profitPerHour = jsRound (jsMul row.totalProfit (some row.numPerHour)) := by
  unfold computeRecipe at h
  cases hs : resolveSellPrice s r.recipeName with
  | error e => rw [hs] at h; cases h
  | ok pr =>
    obtain ⟨sp, st⟩ := pr
    rw [hs] at h
    cases hr : processRequirements s r.requirements with
    | error e => rw [hr] at h; cases h
    | ok reqCosts =>
      rw [hr] at h
      simp only [Except.ok.injEq] at h
      subst h
      simp

theorem resolveSellPrice_not_cod (s : SysState) (nm : String) (sp st : JSNum)
    (hne : nm ≠ "Cooked Cod") (hok : resolveSellPrice s nm = .ok (sp, st)) :
    st = jsFloor (jsMul sp (some (0.88 : ℚ))) := by
  unfold resolveSellPrice at hok
  rw [if_neg hne] at hok
  cases hg : getItemByNameIndexedDB s nm with
  | error e => rw [hg] at hok; cases hok
  | ok item =>
    rw [hg] at hok
    simp only [Except.ok.injEq, Prod.mk.injEq] at hok
    rw [← hok.1, ← hok.2]

/-! ## Market tax (C4) -/

/-- Claim C4 counterexample: the "Cooked Cod" escape hatch yields a row
whose taxed sell price is 2, not `floor(2 * 0.88) = 1`: the fixed 12%
tax is not applied to the hardcoded nominal sell price. -/
theorem cookedCod_tax_not_floored :
    ∃ row, computeRecipe ⟨true, [], []⟩ ⟨"Cooked Cod", 10, []⟩ = .ok row ∧
      row.recipeSellPrice = some 2 ∧
      row.recipeSellPriceWithTax = some 2 ∧
      jsFloor (jsMul row.recipeSellPrice (some (0.88 : ℚ))) = some 1 ∧
      row.recipeSellPriceWithTax ≠ jsFloor (jsMul row.recipeSellPrice (some (0.88 : ℚ))) := by
  refine ⟨_, rfl, rfl, rfl, ?_, ?_⟩
  · show jsFloor (jsMul (some 2) (some (0.88 : ℚ))) = some 1
    norm_num [jsFloor, jsMul]
  · show (some (2 : ℚ) : JSNum) ≠ jsFloor (jsMul (some 2) (some (0.88 : ℚ)))
    norm_num [jsFloor, jsMul]

/-- Claim C4 (amended): for every computed recipe row whose output is
not the hardcoded "Cooked Cod" exception, the taxed sell price equals
`floor(sellPrice * 0.88)` — the fixed 12% tax rounded down; for the
exception the row carries the hardcoded sell price 2 and taxed sell
price 2, with no tax applied. -/
theorem sellPriceWithTax_floor_rule (s : SysState) (r : RawRecipe) (row : ProfitRow)
    (h : computeRecipe s r = .ok row) :
    (r.recipeName ≠ "Cooked Cod" →
      row.recipeSellPriceWithTax = jsFloor (jsMul row.recipeSellPrice (some (0.88 : ℚ)))) ∧
    (r.recipeName = "Cooked Cod" →
      row.recipeSellPrice = some 2 ∧ row.recipeSellPriceWithTax = some 2) := by
  have hf := (computeRecipe_ok_fields s r row h).1
  constructor
  · intro hne
    exact resolveSellPrice_not_cod s r.recipeName _ _ hne hf
  · intro heq
    rw [heq] at hf
    unfold resolveSellPrice at hf
    rw [if_pos rfl] at hf
    simp only [Except.ok.injEq, Prod.mk.injEq] at hf
    exact ⟨hf.1.symm, hf.2.symm⟩

theorem sellPriceWithTax_floor_rule_witness :
    computeRecipe readyState scenarioRecipe = .ok scenarioRow ∧
    scenarioRecipe.recipeName ≠ "Cooked Cod" ∧
    scenarioRow.recipeSellPriceWithTax =
      jsFloor (jsMul scenarioRow.recipeSellPrice (some (0.88 : ℚ))) :=
  ⟨computeRecipe_scenario, by decide,
   (sellPriceWithTax_floor_rule readyState scenarioRecipe scenarioRow
      computeRecipe_scenario).1 (by decide)⟩

/-! ## Profit formula (C9) -/

/-- Claim C9: every successfully computed row satisfies
`profitPerCraft = sellPriceAfterTax - totalInputCost`,
`numPerHour = 3600 / craftTimeSeconds` and
`profitPerHour = round(profitPerCraft * numPerHour)`; in particular the
recipe with craft time 10, resolved sell price 100 and one requirement
of quantity 1 at price 2 yields 88 / 2 / 86 / 360 / 30960. -/
theorem profit_formula (s : SysState) (r : RawRecipe) (row : ProfitRow)
    (h : computeRecipe s r = .ok row) :
    (row.totalProfit = jsSub row.recipeSellPriceWithTax row.totalCost ∧
     row.numPerHour = 3600 / row.craftTimeSeconds ∧
     row.profitPerHour = jsRound (jsMul row.totalProfit (some row.numPerHour))) ∧
    (computeRecipe readyState scenarioRecipe = .ok scenarioRow ∧
     scenarioRow.recipeSellPriceWithTax = some 88 ∧
     scenarioRow.totalCost = some 2 ∧
     scenarioRow.totalProfit = some 86 ∧
     scenarioRow.numPerHour = 360 ∧
     scenarioRow.profitPerHour = some 30960) := by
  obtain ⟨h1, h2, h3, h4, h5, h6⟩ := computeRecipe_ok_fields s r row h
  refine ⟨⟨h4, ?_, h6⟩, computeRecipe_scenario, rfl, rfl, rfl, rfl, rfl⟩
  rw [h5, h2]

theorem profit_formula_witness :
    computeRecipe readyState scenarioRecipe = .ok scenarioRow ∧
    scenarioRow.totalProfit = jsSub scenarioRow.recipeSellPriceWithTax scenarioRow.totalCost ∧
    scenarioRow.numPerHour = 3600 / scenarioRow.craftTimeSeconds ∧
    scenarioRow.profitPerHour = jsRound (jsMul scenarioRow.totalProfit (some scenarioRow.numPerHour)) :=
  ⟨computeRecipe_scenario,
   (profit_formula readyState scenarioRecipe scenarioRow computeRecipe_scenario).1⟩

/-! ## Unresolvable ingredients (C5, C6) -/

/-- Claim C5 counterexample: with the requirement "Missing Gem" in
neither the vendor table nor the store, rendering the recipe rejects
outright — no ProfitResult (zero-costed, `resolvable = false`-style, or
otherwise) is produced for the recipe. -/
theorem unresolved_requirement_no_zeroed_row :
    renderCraftProfit readyState [badRecipe] = .error "Item with name Missing Gem not found." ∧
    ¬ ∃ rows, renderCraftProfit readyState [badRecipe] = .ok rows := by
  have he : renderCraftProfit readyState [badRecipe] =
      .error "Item with name Missing Gem not found." := rfl
  refine ⟨he, ?_⟩
  rintro ⟨rows, hr⟩
  rw [he] at hr
  cases hr

theorem getItem_not_found (s : SysState) (nm : String)
    (hv : findVendorItemByName nm = none)
    (hs : idbIndexGetName s.store nm = none) :
    ∃ e, getItemByNameIndexedDB s nm = .error e := by
  unfold getItemByNameIndexedDB
  rw [hv]
  by_cases hd : s.dbReady = false
  · exact ⟨"Database not connected.", by rw [if_pos hd]⟩
  · rw [if_neg hd, hs]
    exact ⟨_, rfl⟩

theorem foldlM_error_of_mem (s : SysState) (req : RawRequirement)
    (hfail : ∀ acc : List ReqCost, ∃ e, processRequirement s acc req = .error e) :
    ∀ (l : List RawRequirement), req ∈ l →
      ∀ acc : List ReqCost, ∃ e, l.foldlM (processRequirement s) acc = .error e := by
  intro l
  induction l with
  | nil => intro hm; cases hm
  | cons a rest ih =>
    intro hm acc
    rw [List.foldlM_cons]
    cases hpa : processRequirement s acc a with
    | error e => exact ⟨e, rfl⟩
    | ok acc' =>
      rcases List.mem_cons.mp hm with rfl | hm'
      · obtain ⟨e, he⟩ := hfail acc
        rw [hpa] at he
        cases he
      · obtain ⟨e, he⟩ := ih hm' acc'
        exact ⟨e, he⟩

/-- Claim C5 (amended): a recipe containing a well-formed requirement
(parsable quantity, nonempty trimmed name) whose item name resolves in
neither the vendor catalog nor the store produces no ProfitResult at
all: the per-recipe computation rejects with an error — the source's
zero-cost fallback branch being unreachable — so no figure, partial or
zeroed, is shown for that recipe. -/
theorem unresolved_requirement_computation_rejects (s : SysState) (r : RawRecipe)
    (req : RawRequirement) (hmem : req ∈ r.requirements)
    (hq : parseIntJS (trimJS req.quantityText) ≠ none)
    (hn : trimJS req.itemNameText ≠ "")
    (hv : findVendorItemByName (trimJS req.itemNameText) = none)
    (hs : idbIndexGetName s.store (trimJS req.itemNameText) = none) :
    ∃ e, computeRecipe s r = .error e := by
  have hfail : ∀ acc : List ReqCost, ∃ e, processRequirement s acc req = .error e := by
    intro acc
    obtain ⟨e, he⟩ := getItem_not_found s (trimJS req.itemNameText) hv hs
    refine ⟨e, ?_⟩
    unfold processRequirement
    cases hq' : parseIntJS (trimJS req.quantityText) with
    | none => exact absurd hq' hq
    | some q => simp [if_neg hn, he]
  unfold computeRecipe
  cases hsp : resolveSellPrice s r.recipeName with
  | error e => exact ⟨e, rfl⟩
  | ok pr =>
    obtain ⟨sp, st⟩ := pr
    obtain ⟨e, he⟩ := foldlM_error_of_mem s req hfail r.requirements hmem []
    unfold processRequirements
    rw [he]
    exact ⟨e, rfl⟩

theorem unresolved_requirement_computation_rejects_witness :
    (⟨"1", "Missing Gem"⟩ : RawRequirement) ∈ badRecipe.requirements ∧
    parseIntJS (trimJS "1") ≠ none ∧
    trimJS "Missing Gem" ≠ "" ∧
    findVendorItemByName (trimJS "Missing Gem") = none ∧
    idbIndexGetName readyState.store (trimJS "Missing Gem") = none ∧
    ∃ e, computeRecipe readyState badRecipe = .error e :=
  ⟨by decide, by decide, by decide, by rfl, by rfl,
   unresolved_requirement_computation_rejects readyState badRecipe ⟨"1", "Missing Gem"⟩
     (by decide) (by decide) (by decide) (by rfl) (by rfl)⟩

/-- Claim C6: code-bug evidence — the second recipe computes a profit
row on its own, yet rendering the pair produces no rows at all: the
first recipe's rejected lookup propagates out of the whole render loop,
so a resolution failure is not isolated to its recipe. -/
theorem one_unresolved_recipe_aborts_render :
    computeRecipe readyState scenarioRecipe = .ok scenarioRow ∧
    renderCraftProfit readyState [badRecipe, scenarioRecipe] =
      .error "Item with name Missing Gem not found." :=
  ⟨computeRecipe_scenario, rfl⟩

/-! ## Stalled batches drain in submission order (C1) -/

theorem storeItems_notReady (data : List RawEntry) (s : SysState) (h : s.dbReady = false) :
    storeItemsIndexedDB data s = { s with stalled := s.stalled ++ [data] } := by
  unfold storeItemsIndexedDB
  rw [if_pos h]

/-- Once the db handle is live, a call to `storeItemsIndexedDB` first
consumes the whole backlog, oldest batch first (the recursive pop
re-reverses the LIFO pops back into submission order), then applies its
own batch. -/
theorem storeItems_ready (st : List (List RawEntry)) (sto : List ItemData)
    (data : List RawEntry) :
    storeItemsIndexedDB data ⟨true, st, sto⟩ =
      ⟨true, [], upsertBatch (st.foldl upsertBatch sto) data⟩ := by
  induction st using List.reverseRecOn generalizing sto data with
  | nil =>
    unfold storeItemsIndexedDB
    simp
  | append_singleton l p ih =>
    unfold storeItemsIndexedDB
    simp only [Bool.true_eq_false, if_false]
    split
    · next heq =>
      rw [List.getLast?_concat] at heq
      cases heq
    · next prev heq =>
      rw [List.getLast?_concat] at heq
      obtain rfl : p = prev := by injection heq
      simp only [List.dropLast_concat]
      rw [ih]
      simp [List.foldl_append]

theorem drainLoop_empty (fuel : ℕ) (sto : List ItemData) :
    drainLoop fuel ⟨true, [], sto⟩ = ⟨true, [], sto⟩ := by
  cases fuel <;> simp [drainLoop]

theorem drainLoop_ready (fuel : ℕ) (st : List (List RawEntry)) (sto : List ItemData)
    (hf : st.length ≤ fuel) :
    drainLoop fuel ⟨true, st, sto⟩ = ⟨true, [], st.foldl upsertBatch sto⟩ := by
  cases fuel with
  | zero =>
    have hnil : st = [] := List.length_eq_zero.mp (Nat.le_zero.mp hf)
    subst hnil
    simp [drainLoop]
  | succ n =>
    rcases st.eq_nil_or_concat with hnil | ⟨l, p, hcat⟩
    · subst hnil
      simp [drainLoop]
    · subst hcat
      simp only [List.concat_eq_append]
      simp only [drainLoop, List.getLast?_concat, List.dropLast_concat]
      rw [storeItems_ready, drainLoop_empty]
      simp [List.foldl_append]

/-- The `onsuccess` handler leaves the db live, the backlog empty, and
the store equal to the buffered batches applied in submission order. -/
theorem onDbSuccess_eq (s : SysState) :
    onDbSuccess s = ⟨true, [], s.stalled.foldl upsertBatch s.store⟩ := by
  obtain ⟨rdy, st, sto⟩ := s
  unfold onDbSuccess
  exact drainLoop_ready st.length st sto (le_refl _)

/-- Claim C1: two batches submitted (B1 then B2) while the db handle is
still null are buffered, and once the connection succeeds the store
equals the sequential application of B1 then B2 to the drained prior
state — so B2's records win on any id conflict. -/
theorem stalled_batches_applied_in_order (s : SysState) (B1 B2 : List RawEntry)
    (hready : s.dbReady = false) :
    (onDbSuccess (storeItemsIndexedDB B2 (storeItemsIndexedDB B1 s))).store =
      upsertBatch (upsertBatch (s.stalled.foldl upsertBatch s.store) B1) B2 ∧
    (onDbSuccess (storeItemsIndexedDB B2 (storeItemsIndexedDB B1 s))).stalled = [] := by
  rw [storeItems_notReady B1 s hready,
      storeItems_notReady B2 _ (by simpa using hready),
      onDbSuccess_eq]
  constructor
  · show (s.stalled ++ [B1] ++ [B2]).foldl upsertBatch s.store = _
    simp [List.foldl_append]
  · rfl

def batchOld : List RawEntry := [⟨1, "h1", .num 10, "Iron Ore", some 1⟩]

def batchNew : List RawEntry := [⟨1, "h1", .num 20, "Iron Ore", some 1⟩]

theorem stalled_batches_applied_in_order_witness :
    (⟨false, [], []⟩ : SysState).dbReady = false ∧
    (onDbSuccess (storeItemsIndexedDB batchNew
        (storeItemsIndexedDB batchOld ⟨false, [], []⟩))).store =
      upsertBatch (upsertBatch (([] : List (List RawEntry)).foldl upsertBatch []) batchOld)
        batchNew ∧
    upsertBatch (upsertBatch (([] : List (List RawEntry)).foldl upsertBatch []) batchOld)
        batchNew = [⟨1, "h1", some 20, "Iron Ore", some 1⟩] :=
  ⟨rfl, (stalled_batches_applied_in_order ⟨false, [], []⟩ batchOld batchNew rfl).1,
   by decide⟩

end MarketHelper
